import Mathlib

/-!
Verification of the Klarion sticky-notes store (`src/main.py`).

The note store (`NoteManager`) is embedded shallowly: the mutable manager
becomes a `Store` value threaded through pure operations; each operation
returns the new store together with the list of side effects the Python
method performs (file persistence and Qt signal emissions), in the order
the code performs them.  Timestamps (`time.time()`) are passed in as an
explicit `now : Nat` parameter.  `uuid.uuid4()` is an external random
generator whose contract is to produce an identifier distinct from all
existing ones; it is modelled deterministically over `Nat` by `freshId`,
which returns one more than the largest identifier in the store.
-/

namespace Klarion

/-- A JSON-representable setting value (the Python settings dict holds
booleans and integers; strings are included for arbitrary values). -/
inductive SVal where
  | bool (b : Bool)
  | int (n : Int)
  | str (s : String)
deriving DecidableEq

/-- One note record, as stored in `NoteManager.notes_data`:
`{"id": ..., "content": ..., "timestamp": ...}`. -/
structure Note where
  id : Nat
  content : String
  timestamp : Nat
deriving DecidableEq

/-- The settings dict, as an association list in insertion order. -/
abbrev Settings := List (String × SVal)

/-- Python dict lookup `d[k]` (as an `Option`): first binding wins. -/
def dictGet : Settings → String → Option SVal
  | [], _ => none
  | p :: rest, k => if p.1 = k then some p.2 else dictGet rest k

/-- Python dict assignment `d[k] = v`: overwrite an existing binding in
place, otherwise append the new binding at the end. -/
def dictSet (d : Settings) (k : String) (v : SVal) : Settings :=
  if d.any (fun p => p.1 == k) then
    d.map (fun p => if p.1 = k then (k, v) else p)
  else d ++ [(k, v)]

/-- A parsed persisted JSON document, with exactly the fields
`NoteManager.load_data` and `NoteManager.save_data` touch: `notes` and
`settings` (current format), `content`/`pinned`/`opacity`/`theme_index`
(legacy single-note format).  A missing key is `none`. -/
structure Doc where
  notes : Option (List Note)
  settings : Option Settings
  content : Option String
  pinned : Option Bool
  opacity : Option Int
  theme_index : Option Int
deriving DecidableEq

/-- The manager's shared state: `self.notes_data` and `self.settings`. -/
structure Store where
  notes_data : List Note
  settings : Settings
deriving DecidableEq

/-- Side effects a `NoteManager` method performs: writing the JSON file
(`save_data`) and the three Qt signals. -/
inductive Effect where
  | persist (d : Doc)
  | notesUpdated
  | noteContentChanged (id : Nat) (content : String)
  | settingsChanged
deriving DecidableEq

/-- The defaults set in `NoteManager.__init__`:
`{"pinned": False, "opacity": 240, "theme_index": 0}`. -/
def defaultSettings : Settings :=
  [("pinned", SVal.bool false), ("opacity", SVal.int 240), ("theme_index", SVal.int 0)]

/-- Model of `uuid.uuid4()`: a fresh identifier, distinct from every
identifier already in the list (one more than the maximum). -/
def freshId (notes : List Note) : Nat :=
  notes.foldr (fun n acc => max n.id acc) 0 + 1

/-- `NoteManager.save_data`: the document written to the JSON file,
`{"notes": self.notes_data, "settings": self.settings}`. -/
def save_data (s : Store) : Doc :=
  { notes := some s.notes_data, settings := some s.settings,
    content := none, pinned := none, opacity := none, theme_index := none }

/-- `NoteManager.create_new_note`: insert a blank note with a fresh id at
the front, persist when `save` is set, emit `notes_updated`, return the
new id. -/
def create_new_note (s : Store) (now : Nat) (save : Bool) : Store × Nat × List Effect :=
  let new_id := freshId s.notes_data
  let new_note : Note := { id := new_id, content := "", timestamp := now }
  let s1 : Store := { s with notes_data := new_note :: s.notes_data }
  (s1, new_id, (if save then [Effect.persist (save_data s1)] else []) ++ [Effect.notesUpdated])

/-- `NoteManager.ensure_at_least_one_note`: if the list is empty, create
one blank note without saving. -/
def ensure_at_least_one_note (s : Store) (now : Nat) : Store × List Effect :=
  if s.notes_data.isEmpty then
    let c := create_new_note s now false
    (c.1, c.2.2)
  else (s, [])

/-- `NoteManager.delete_note`: remove every note with the given id; if the
list became empty, create a replacement blank note without a second save;
persist once; emit `notes_updated`. -/
def delete_note (s : Store) (note_id : Nat) (now : Nat) : Store × List Effect :=
  let s1 : Store := { s with notes_data := s.notes_data.filter (fun n => n.id != note_id) }
  let r := if s1.notes_data.isEmpty then
      let c := create_new_note s1 now false
      (c.1, c.2.2)
    else (s1, ([] : List Effect))
  (r.1, r.2 ++ [Effect.persist (save_data r.1), Effect.notesUpdated])

/-- The loop body of `NoteManager.update_note_content`: overwrite the
content and timestamp of the first note with a matching id (the loop
breaks after the first match), leave the rest unchanged. -/
def update_note_content_list : List Note → Nat → String → Nat → List Note
  | [], _, _, _ => []
  | n :: rest, note_id, content, now =>
    if n.id = note_id then { n with content := content, timestamp := now } :: rest
    else n :: update_note_content_list rest note_id content now

/-- `NoteManager.update_note_content`: update the first matching note (a
miss leaves the list unchanged), then persist and emit
`note_content_changed(note_id, content)` unconditionally. -/
def update_note_content (s : Store) (note_id : Nat) (content : String) (now : Nat) :
    Store × List Effect :=
  let s1 : Store := { s with notes_data := update_note_content_list s.notes_data note_id content now }
  (s1, [Effect.persist (save_data s1), Effect.noteContentChanged note_id content])

/-- `NoteManager.get_note_content`: content of the note with the given id,
or the empty string when absent. -/
def get_note_content (s : Store) (note_id : Nat) : String :=
  match s.notes_data.find? (fun n => n.id == note_id) with
  | some n => n.content
  | none => ""

/-- `NoteManager.update_setting`: store the value verbatim under the key,
persist, emit `settings_changed`. -/
def update_setting (s : Store) (key : String) (value : SVal) : Store × List Effect :=
  let s1 : Store := { s with settings := dictSet s.settings key value }
  (s1, [Effect.persist (save_data s1), Effect.settingsChanged])

/-- `NoteManager.load_data` on the parsed document: `none` stands for a
missing file or any read/parse error, which the `except` block absorbs,
leaving the state untouched.  A document with a `notes` key replaces the
note list and (when present) the settings wholesale; otherwise the legacy
single-note migration wraps the `content` field into one new note and
lifts `pinned`/`opacity`/`theme_index` (or their defaults) into the
settings. -/
def load_data (s : Store) (doc : Option Doc) (now : Nat) : Store :=
  match doc with
  | none => s
  | some d =>
    match d.notes with
    | some ns => { s with notes_data := ns, settings := d.settings.getD s.settings }
    | none =>
      let content := d.content.getD ""
      let note_id := freshId s.notes_data
      { notes_data := [{ id := note_id, content := content, timestamp := now }],
        settings := dictSet (dictSet (dictSet s.settings
            "pinned" (SVal.bool (d.pinned.getD false)))
            "opacity" (SVal.int (d.opacity.getD 240)))
            "theme_index" (SVal.int (d.theme_index.getD 0)) }

/-- `NoteManager.__init__` after the defaults are set: load the persisted
document, then ensure at least one note exists. -/
def initStore (doc : Option Doc) (now : Nat) : Store :=
  let s0 : Store := { notes_data := [], settings := defaultSettings }
  (ensure_at_least_one_note (load_data s0 doc now) now).1

/-- One theme preset of `StickyNote.THEMES`. -/
structure Theme where
  name : String
  bg : Nat × Nat × Nat
  text : String
  border : String
deriving DecidableEq

/-- `StickyNote.THEMES`: the fixed ordered list of five presets. -/
def THEMES : List Theme :=
  [ { name := "Dark", bg := (30, 30, 30), text := "#ffffff", border := "rgba(255, 255, 255, 30)" },
    { name := "Classic", bg := (255, 247, 128), text := "#000000", border := "rgba(0, 0, 0, 30)" },
    { name := "Ocean", bg := (30, 60, 90), text := "#ffffff", border := "rgba(255, 255, 255, 30)" },
    { name := "Rose", bg := (255, 200, 200), text := "#000000", border := "rgba(0, 0, 0, 30)" },
    { name := "Mint", bg := (200, 255, 200), text := "#000000", border := "rgba(0, 0, 0, 30)" } ]

/-- `StickyNote.cycle_theme`: advance `settings["theme_index"]` by one
modulo `len(THEMES)` through `update_setting` (Python `%` on a positive
modulus agrees with `Int.emod`).  A store whose `theme_index` entry is
missing or non-integer is returned unchanged (the Python code would raise
there; the claims only concern integer indices). -/
def cycle_theme (s : Store) : Store :=
  match dictGet s.settings "theme_index" with
  | some (SVal.int idx) =>
      (update_setting s "theme_index" (SVal.int ((idx + 1) % (THEMES.length : Int)))).1
  | _ => s

/-- A store mutation, for stating trace invariants.  `load` is the
constructor-time sequence `load_data` + `ensure_at_least_one_note` (the
only way `load_data` is ever invoked). -/
inductive Op where
  | load (doc : Option Doc)
  | create
  | delete (note_id : Nat)
  | updateContent (note_id : Nat) (content : String)
  | updateSetting (key : String) (value : SVal)
deriving DecidableEq

/-- Apply one operation (with its timestamp) to the store. -/
def applyOp (s : Store) (now : Nat) : Op → Store
  | Op.load doc => (ensure_at_least_one_note (load_data s doc now) now).1
  | Op.create => (create_new_note s now true).1
  | Op.delete nid => (delete_note s nid now).1
  | Op.updateContent nid c => (update_note_content s nid c now).1
  | Op.updateSetting k v => (update_setting s k v).1

/-- Run a sequence of timestamped operations. -/
def run (s : Store) : List (Op × Nat) → Store
  | [] => s
  | p :: rest => run (applyOp s p.2 p.1) rest

/-- The store invariant: the note list is never empty and note ids are
pairwise distinct. -/
def Inv (s : Store) : Prop :=
  s.notes_data ≠ [] ∧ (s.notes_data.map Note.id).Nodup

/-- A persisted document is well-formed when the note ids it carries are
pairwise distinct (true of every document `save_data` writes from a store
satisfying `Inv`). -/
def goodDoc : Option Doc → Bool
  | some d =>
    match d.notes with
    | some ns => decide ((ns.map Note.id).Nodup)
    | none => true
  | none => true

/-- An operation is well-formed when any document it loads is. -/
def goodOp : Op → Bool
  | Op.load doc => goodDoc doc
  | _ => true

/-- The alpha computation of `StickyNote.update_style`:
`t = (opacity_val - 50) / 205.0`, clamp below zero, `curve_t = t ** 0.4`,
`bg_alpha = int(50 + 205 * curve_t)`.  The float arithmetic is modelled
over `ℝ`; Python `int()` truncates toward zero, which on this value
(always at least `50`) is `Int.floor`. -/
noncomputable def update_style_alpha (v : Int) : Int :=
  let t : ℝ := ((v : ℝ) - 50) / 205
  let t2 : ℝ := if t < 0 then 0 else t
  let curve_t : ℝ := t2 ^ (0.4 : ℝ)
  ⌊(50 : ℝ) + 205 * curve_t⌋

/-- The opacity curve exactly as the specification words it:
`t = clamp((v - 50) / 205, 0, 1)` (both bounds), then
`alpha = round(50 + 205 * t ^ 0.4)` — rounding, not truncation. -/
noncomputable def spec_alpha_round (v : Int) : Int :=
  let t : ℝ := max 0 (min 1 (((v : ℝ) - 50) / 205))
  round ((50 : ℝ) + 205 * t ^ (0.4 : ℝ))

/-- The specification's curve with the final rounding replaced by
truncation (floor), which is what the code actually does. -/
noncomputable def spec_alpha_trunc (v : Int) : Int :=
  let t : ℝ := max 0 (min 1 (((v : ℝ) - 50) / 205))
  ⌊(50 : ℝ) + 205 * t ^ (0.4 : ℝ)⌋

/-- A syntactically valid persisted document whose two notes share the
id `1`. -/
def dupDoc : Doc :=
  { notes := some [{ id := 1, content := "a", timestamp := 0 },
                   { id := 1, content := "b", timestamp := 0 }],
    settings := none, content := none, pinned := none, opacity := none,
    theme_index := none }

/-- The legacy-format document `{"content": "hello", "opacity": 200}`. -/
def legacyDoc : Doc :=
  { notes := none, settings := none, content := some "hello",
    pinned := none, opacity := some 200, theme_index := none }

/-! ### Helper lemmas -/

lemma le_foldr_max (l : List Note) (n : Note) (h : n ∈ l) :
    n.id ≤ l.foldr (fun m acc => max m.id acc) 0 := by
  induction l with
  | nil => cases h
  | cons x xs ih =>
    rcases List.mem_cons.mp h with h | h
    · subst h; exact le_max_left _ _
    · exact le_trans (ih h) (le_max_right _ _)

lemma freshId_not_mem (l : List Note) : freshId l ∉ l.map Note.id := by
  intro hmem
  rcases List.mem_map.mp hmem with ⟨n, hn, hid⟩
  have hle := le_foldr_max l n hn
  unfold freshId at hid
  omega

lemma update_list_map_id (l : List Note) (nid : Nat) (c : String) (now : Nat) :
    (update_note_content_list l nid c now).map Note.id = l.map Note.id := by
  induction l with
  | nil => rfl
  | cons n rest ih =>
    by_cases h : n.id = nid
    · simp [update_note_content_list, h]
    · simp [update_note_content_list, h, ih]

lemma update_list_miss (l : List Note) (nid : Nat) (c : String) (now : Nat)
    (h : nid ∉ l.map Note.id) : update_note_content_list l nid c now = l := by
  induction l with
  | nil => rfl
  | cons n rest ih =>
    simp only [List.map_cons, List.mem_cons] at h
    push_neg at h
    rw [update_note_content_list, if_neg (fun he => h.1 (by rw [he])), ih h.2]

lemma dictGet_dictSet_self (d : Settings) (k : String) (v : SVal) :
    dictGet (dictSet d k v) k = some v := by
  induction d with
  | nil => simp [dictSet, dictGet]
  | cons p rest ih =>
    by_cases hp : p.1 = k
    · have hany : (p :: rest).any (fun q => q.1 == k) = true := by
        simp [List.any_cons, hp]
      simp [dictSet, hany, dictGet, hp]
    · by_cases hr : rest.any (fun q => q.1 == k) = true
      · have hany : (p :: rest).any (fun q => q.1 == k) = true := by
          simp [List.any_cons, hr]
        rw [dictSet, if_pos hany]
        simp only [List.map_cons, dictGet, if_neg hp]
        rw [dictSet, if_pos hr] at ih
        exact ih
      · have hany : ¬ ((p :: rest).any (fun q => q.1 == k) = true) := by
          simp only [List.any_cons, Bool.or_eq_true, not_or]
          exact ⟨by simp [hp], hr⟩
        rw [dictSet, if_neg hany]
        simp only [List.cons_append, dictGet, if_neg hp]
        rw [dictSet, if_neg hr] at ih
        exact ih

lemma inv_create (s : Store) (now : Nat) (b : Bool)
    (h : (s.notes_data.map Note.id).Nodup) : Inv (create_new_note s now b).1 := by
  refine ⟨by simp [create_new_note], ?_⟩
  simp only [create_new_note, List.map_cons, List.nodup_cons]
  exact ⟨freshId_not_mem _, h⟩

lemma inv_ensure (s : Store) (now : Nat)
    (h : (s.notes_data.map Note.id).Nodup) : Inv (ensure_at_least_one_note s now).1 := by
  unfold ensure_at_least_one_note
  by_cases he : s.notes_data.isEmpty
  · simp only [he, if_true]
    exact inv_create s now false h
  · simp only [he, if_false, Bool.false_eq_true]
    exact ⟨by simpa [List.isEmpty_iff] using he, h⟩

lemma inv_delete (s : Store) (nid now : Nat)
    (h : (s.notes_data.map Note.id).Nodup) : Inv (delete_note s nid now).1 := by
  unfold delete_note
  set l := s.notes_data.filter (fun n => n.id != nid) with hl
  have hsub : List.Sublist (l.map Note.id) (s.notes_data.map Note.id) :=
    (List.filter_sublist _).map _
  have hnd : (l.map Note.id).Nodup := h.sublist hsub
  by_cases he : l.isEmpty
  · simp only [he, if_true]
    exact inv_create _ now false hnd
  · simp only [he, if_false, Bool.false_eq_true]
    exact ⟨by simpa [List.isEmpty_iff] using he, hnd⟩

lemma inv_update_content (s : Store) (nid : Nat) (c : String) (now : Nat)
    (h : Inv s) : Inv (update_note_content s nid c now).1 := by
  obtain ⟨h1, h2⟩ := h
  constructor
  · intro hcon
    apply h1
    have hmap := update_list_map_id s.notes_data nid c now
    simp only [update_note_content] at hcon
    rw [hcon] at hmap
    exact List.map_eq_nil_iff.mp hmap.symm
  · simpa only [update_note_content, update_list_map_id] using h2

lemma nonempty_create (s : Store) (now : Nat) (b : Bool) :
    (create_new_note s now b).1.notes_data ≠ [] := by
  simp [create_new_note]

lemma nonempty_ensure (s : Store) (now : Nat) :
    (ensure_at_least_one_note s now).1.notes_data ≠ [] := by
  unfold ensure_at_least_one_note
  by_cases he : s.notes_data.isEmpty
  · simp only [he, if_true]
    exact nonempty_create s now false
  · simp only [he, if_false, Bool.false_eq_true]
    simpa [List.isEmpty_iff] using he

lemma nonempty_delete (s : Store) (nid now : Nat) :
    (delete_note s nid now).1.notes_data ≠ [] := by
  unfold delete_note
  set l := s.notes_data.filter (fun n => n.id != nid) with hl
  by_cases he : l.isEmpty
  · simp only [he, if_true]
    exact nonempty_create _ now false
  · simp only [he, if_false, Bool.false_eq_true]
    simpa [List.isEmpty_iff] using he

lemma nonempty_update_content (s : Store) (nid : Nat) (c : String) (now : Nat)
    (h : s.notes_data ≠ []) : (update_note_content s nid c now).1.notes_data ≠ [] := by
  intro hcon
  apply h
  have hmap := update_list_map_id s.notes_data nid c now
  simp only [update_note_content] at hcon
  rw [hcon] at hmap
  exact List.map_eq_nil_iff.mp hmap.symm

lemma nonempty_applyOp (s : Store) (now : Nat) (op : Op) (h : s.notes_data ≠ []) :
    (applyOp s now op).notes_data ≠ [] := by
  cases op with
  | load doc => exact nonempty_ensure _ _
  | create => exact nonempty_create _ _ _
  | delete nid => exact nonempty_delete _ _ _
  | updateContent nid c => exact nonempty_update_content _ _ _ _ h
  | updateSetting k v => exact h

lemma nonempty_run (s : Store) (ops : List (Op × Nat)) (h : s.notes_data ≠ []) :
    (run s ops).notes_data ≠ [] := by
  induction ops generalizing s with
  | nil => exact h
  | cons p rest ih => exact ih _ (nonempty_applyOp s p.2 p.1 h)

lemma inv_loadOp (s : Store) (doc : Option Doc) (now : Nat)
    (h : (s.notes_data.map Note.id).Nodup) (hdoc : goodDoc doc = true) :
    Inv (ensure_at_least_one_note (load_data s doc now) now).1 := by
  apply inv_ensure
  cases doc with
  | none => exact h
  | some d =>
    cases hd : d.notes with
    | some ns =>
      simp only [load_data, hd]
      simp only [goodDoc, hd, decide_eq_true_eq] at hdoc
      exact hdoc
    | none =>
      simp [load_data, hd]

lemma inv_applyOp (s : Store) (now : Nat) (op : Op) (h : Inv s) (hop : goodOp op = true) :
    Inv (applyOp s now op) := by
  cases op with
  | load doc => exact inv_loadOp s doc now h.2 (by simpa [goodOp] using hop)
  | create => exact inv_create s now true h.2
  | delete nid => exact inv_delete s nid now h.2
  | updateContent nid c => exact inv_update_content s nid c now h
  | updateSetting k v => exact h

lemma inv_run (s : Store) (ops : List (Op × Nat)) (h : Inv s)
    (hops : ∀ p ∈ ops, goodOp p.1 = true) : Inv (run s ops) := by
  induction ops generalizing s with
  | nil => exact h
  | cons p rest ih =>
    exact ih (applyOp s p.2 p.1)
      (inv_applyOp s p.2 p.1 h (hops p (by simp)))
      (fun q hq => hops q (by simp [hq]))

lemma rpow04_pow_five (t : ℝ) (ht : 0 ≤ t) : (t ^ (0.4 : ℝ)) ^ (5 : ℕ) = t ^ (2 : ℕ) := by
  rw [← Real.rpow_natCast (t ^ (0.4 : ℝ)) 5, ← Real.rpow_mul ht, ← Real.rpow_natCast t 2]
  norm_num

lemma le_rpow04_iff (t a : ℝ) (ht : 0 ≤ t) (ha : 0 ≤ a) :
    a ≤ t ^ (0.4 : ℝ) ↔ a ^ (5 : ℕ) ≤ t ^ (2 : ℕ) := by
  constructor
  · intro h
    have h5 := pow_le_pow_left₀ ha h 5
    rwa [rpow04_pow_five t ht] at h5
  · intro h
    exact le_of_pow_le_pow_left₀ (n := 5) (by norm_num) (Real.rpow_nonneg ht _)
      (by rwa [rpow04_pow_five t ht])

lemma rpow04_lt_iff (t a : ℝ) (ht : 0 ≤ t) (ha : 0 ≤ a) :
    t ^ (0.4 : ℝ) < a ↔ t ^ (2 : ℕ) < a ^ (5 : ℕ) := by
  constructor
  · intro h
    have h5 := pow_lt_pow_left₀ h (Real.rpow_nonneg ht _) (by norm_num : (5 : ℕ) ≠ 0)
    rwa [rpow04_pow_five t ht] at h5
  · intro h
    exact lt_of_pow_lt_pow_left₀ 5 ha (by rwa [rpow04_pow_five t ht])

/-! ### Claim theorems -/

/-- C1 (amended): across every sequence of operations (load from any
persisted file, createNote, deleteNote, updateContent, updateSetting)
starting from the constructor's load, the note list is never empty —
unconditionally, for arbitrary loaded documents; every note id is unique
provided every loaded persisted document carries pairwise-distinct note
ids (as every document written by `save_data` from such a store does);
and deleting the only remaining note leaves a store of size 1 containing
an auto-created blank note. -/
theorem store_invariant (doc : Option Doc) (now : Nat) (ops : List (Op × Nat)) :
    (run (initStore doc now) ops).notes_data ≠ []
    ∧ (goodDoc doc = true → (∀ p ∈ ops, goodOp p.1 = true) →
        ((run (initStore doc now) ops).notes_data.map Note.id).Nodup)
    ∧ ∀ (s : Store) (n : Note) (now2 : Nat), s.notes_data = [n] →
        (delete_note s n.id now2).1.notes_data.length = 1
        ∧ ∀ m ∈ (delete_note s n.id now2).1.notes_data, m.content = "" := by
  refine ⟨?_, ?_, ?_⟩
  · apply nonempty_run
    exact nonempty_ensure _ _
  · intro hdoc hops
    refine (inv_run _ _ ?_ hops).2
    unfold initStore
    exact inv_loadOp _ doc now (by simp) hdoc
  · intro s n now2 hs
    have hfilter : s.notes_data.filter (fun m => m.id != n.id) = [] := by
      rw [hs]
      simp [List.filter_cons]
    constructor
    · simp [delete_note, hfilter, create_new_note]
    · intro m hm
      simp [delete_note, hfilter, create_new_note] at hm
      rw [hm]

/-- C1 counterexample: loading a syntactically valid persisted document
whose notes share an id yields a store with duplicate ids, so the
uniqueness invariant does not hold for loads "from any persisted file". -/
theorem store_invariant_cex :
    ¬ (((initStore (some dupDoc) 0).notes_data.map Note.id).Nodup) := by
  decide

/-- C1 witness: non-emptiness survives even a run that loads the
duplicate-id document and then deletes, a concrete well-formed run keeps
the ids unique, and deleting a store's single note leaves exactly one
note. -/
theorem store_invariant_w :
    (run (initStore (some dupDoc) 0) [(Op.delete 1, 1)]).notes_data ≠ []
    ∧ ((run (initStore none 0) [(Op.create, 1), (Op.delete 1, 2)]).notes_data.map
        Note.id).Nodup
    ∧ (delete_note
        { notes_data := [{ id := 7, content := "x", timestamp := 0 }],
          settings := defaultSettings } 7 3).1.notes_data.length = 1 := by
  refine ⟨(store_invariant (some dupDoc) 0 [(Op.delete 1, 1)]).1, ?_, ?_⟩
  · exact (store_invariant none 0 [(Op.create, 1), (Op.delete 1, 2)]).2.1
      (by decide) (by decide)
  · exact ((store_invariant none 0 []).2.2 { notes_data := [{ id := 7, content := "x", timestamp := 0 }], settings := defaultSettings } { id := 7, content := "x", timestamp := 0 } 3 rfl).1

/-- C2: `create_new_note` (with save) returns an id fresh for the store,
puts the blank note with the current timestamp at the front, leaves all
pre-existing notes (and settings) untouched in order, persists the
post-insert store, and emits the list-changed notification. -/
theorem create_new_note_spec (s : Store) (now : Nat) :
    (create_new_note s now true).2.1 ∉ s.notes_data.map Note.id
    ∧ (create_new_note s now true).1.notes_data
        = { id := (create_new_note s now true).2.1, content := "", timestamp := now }
            :: s.notes_data
    ∧ (create_new_note s now true).1.settings = s.settings
    ∧ (create_new_note s now true).2.2
        = [Effect.persist (save_data (create_new_note s now true).1), Effect.notesUpdated] :=
  ⟨freshId_not_mem _, rfl, rfl, rfl⟩

/-- C5: saving any store with `save_data` and loading the produced
document with `load_data` reproduces the note ids and contents in the
same order (in fact the whole note list) and the same settings. -/
theorem save_load_round_trip (s s0 : Store) (now : Nat) :
    (load_data s0 (some (save_data s)) now).notes_data.map Note.id
        = s.notes_data.map Note.id
    ∧ (load_data s0 (some (save_data s)) now).notes_data.map Note.content
        = s.notes_data.map Note.content
    ∧ (load_data s0 (some (save_data s)) now).settings = s.settings :=
  ⟨rfl, rfl, rfl⟩

/-- C6: loading the legacy document `{"content": "hello", "opacity": 200}`
yields a store with exactly one note, whose content is `"hello"` with the
current timestamp, and settings opacity 200, pinned false, themeIndex 0. -/
theorem legacy_load_spec (now : Nat) :
    (initStore (some legacyDoc) now).notes_data.length = 1
    ∧ (∀ n ∈ (initStore (some legacyDoc) now).notes_data,
        n.content = "hello" ∧ n.timestamp = now)
    ∧ dictGet (initStore (some legacyDoc) now).settings "opacity" = some (SVal.int 200)
    ∧ dictGet (initStore (some legacyDoc) now).settings "pinned" = some (SVal.bool false)
    ∧ dictGet (initStore (some legacyDoc) now).settings "theme_index" = some (SVal.int 0) := by
  refine ⟨rfl, ?_, rfl, rfl, rfl⟩
  intro n hn
  simp only [initStore, load_data, legacyDoc, ensure_at_least_one_note,
    List.isEmpty_cons, if_false, Bool.false_eq_true, List.mem_singleton] at hn
  rw [hn]
  exact ⟨rfl, rfl⟩

/-- C7: `update_note_content` called with an id of no existing note is a
total no-op on the store: the call succeeds and every note's id, content
and timestamp (indeed the whole store) is unchanged. -/
theorem update_missing_id_noop (s : Store) (note_id : Nat) (content : String) (now : Nat)
    (h : note_id ∉ s.notes_data.map Note.id) :
    (update_note_content s note_id content now).1 = s := by
  have hmiss := update_list_miss s.notes_data note_id content now h
  simp only [update_note_content, hmiss]

/-- C7 witness: updating a concrete absent id leaves the store intact. -/
theorem update_missing_id_noop_w :
    (update_note_content
      { notes_data := [{ id := 1, content := "x", timestamp := 0 }],
        settings := defaultSettings } 2 "y" 5).1
    = { notes_data := [{ id := 1, content := "x", timestamp := 0 }],
        settings := defaultSettings } :=
  update_missing_id_noop _ 2 "y" 5 (by decide)

/-- C8: when the persisted file is missing or any read/parse error occurs
(the document is `none`), initialisation completes, keeps the default
settings (pinned false, opacity 240, themeIndex 0), and ends with exactly
one auto-created blank note. -/
theorem load_failure_soft (now : Nat) :
    (initStore none now).settings = defaultSettings
    ∧ dictGet (initStore none now).settings "pinned" = some (SVal.bool false)
    ∧ dictGet (initStore none now).settings "opacity" = some (SVal.int 240)
    ∧ dictGet (initStore none now).settings "theme_index" = some (SVal.int 0)
    ∧ (initStore none now).notes_data = [{ id := 1, content := "", timestamp := now }] :=
  ⟨rfl, rfl, rfl, rfl, rfl⟩

/-- C10: `update_setting` validates nothing: for every key string and
every value, the value is stored verbatim under that key, the note list
is unchanged, the store is persisted and the settings-changed
notification is emitted. -/
theorem update_setting_spec (s : Store) (key : String) (value : SVal) :
    (update_setting s key value).1.notes_data = s.notes_data
    ∧ dictGet (update_setting s key value).1.settings key = some value
    ∧ (update_setting s key value).2
        = [Effect.persist (save_data (update_setting s key value).1),
           Effect.settingsChanged] :=
  ⟨rfl, dictGet_dictSet_self _ _ _, rfl⟩

/-- C9: each `cycle_theme` advances `theme_index` by 1 modulo the number
of theme presets, and for every valid starting index, five cycles (the
number of presets) return the store to the original index. -/
theorem cycle_theme_spec (s : Store) (i : Int)
    (hidx : dictGet s.settings "theme_index" = some (SVal.int i))
    (h0 : 0 ≤ i) (h5 : i < (THEMES.length : Int)) :
    dictGet (cycle_theme (cycle_theme (cycle_theme (cycle_theme
        (cycle_theme s))))).settings "theme_index" = some (SVal.int i)
    ∧ ∀ (u : Store) (j : Int),
        dictGet u.settings "theme_index" = some (SVal.int j) →
        dictGet (cycle_theme u).settings "theme_index"
          = some (SVal.int ((j + 1) % (THEMES.length : Int))) := by
  have hlen : (THEMES.length : Int) = 5 := rfl
  have step : ∀ (u : Store) (j : Int),
      dictGet u.settings "theme_index" = some (SVal.int j) →
      dictGet (cycle_theme u).settings "theme_index"
        = some (SVal.int ((j + 1) % (THEMES.length : Int))) := by
    intro u j hj
    unfold cycle_theme
    rw [hj]
    exact dictGet_dictSet_self _ _ _
  refine ⟨?_, step⟩
  have h1 := step s i hidx
  have h2 := step _ _ h1
  have h3 := step _ _ h2
  have h4 := step _ _ h3
  have h5' := step _ _ h4
  rw [h5', hlen]
  have : (((((i + 1) % 5 + 1) % 5 + 1) % 5 + 1) % 5 + 1) % 5 = i := by
    rw [hlen] at h5
    omega
  rw [this]

/-- C9 witness: starting from the default store (theme index 0), five
cycles return the index to 0. -/
theorem cycle_theme_spec_w :
    dictGet (cycle_theme (cycle_theme (cycle_theme (cycle_theme
        (cycle_theme (initStore none 0)))))).settings "theme_index"
      = some (SVal.int 0) :=
  (cycle_theme_spec (initStore none 0) 0 rfl (by decide) (by decide)).1

/-- C3 (amended): on the full input range `[50, 255]` the code's opacity
curve equals the specification formula with the final rounding replaced
by truncation: `alpha = trunc(50 + 205 * clamp((v-50)/205, 0, 1) ^ 0.4)`
(same exponent 0.4, same bounds; the code only clamps below, which agrees
with clamping at both bounds on this range). -/
theorem opacity_trunc_spec (v : Int) (h50 : 50 ≤ v) (h255 : v ≤ 255) :
    update_style_alpha v = spec_alpha_trunc v := by
  have hv50 : (50 : ℝ) ≤ (v : ℝ) := by exact_mod_cast h50
  have hv255 : (v : ℝ) ≤ 255 := by exact_mod_cast h255
  have ht0 : (0 : ℝ) ≤ ((v : ℝ) - 50) / 205 := div_nonneg (by linarith) (by norm_num)
  have ht1 : ((v : ℝ) - 50) / 205 ≤ 1 := by
    rw [div_le_one (by norm_num)]
    linarith
  simp only [update_style_alpha, spec_alpha_trunc]
  rw [if_neg (not_lt.mpr ht0), min_eq_right ht1, max_eq_right ht0]

/-- C3 witness: the equality holds at the concrete input 100. -/
theorem opacity_trunc_spec_w : update_style_alpha 100 = spec_alpha_trunc 100 :=
  opacity_trunc_spec 100 (by decide) (by decide)

/-- C3 counterexample: at the in-range control value 59 the code's
truncated alpha (108) differs from the specification's rounded alpha
(109), so the code does not round. -/
theorem opacity_round_cex :
    (50 : Int) ≤ 59 ∧ (59 : Int) ≤ 255
    ∧ update_style_alpha 59 ≠ spec_alpha_round 59 := by
  refine ⟨by norm_num, by norm_num, ?_⟩
  have ht : (((59 : Int) : ℝ) - 50) / 205 = 9 / 205 := by norm_num
  have ht0 : (0 : ℝ) ≤ (9 : ℝ) / 205 := by norm_num
  have lb : (117 : ℝ) / 410 ≤ ((9 : ℝ) / 205) ^ (0.4 : ℝ) := by
    rw [le_rpow04_iff _ _ ht0 (by norm_num)]
    norm_num
  have ub : ((9 : ℝ) / 205) ^ (0.4 : ℝ) < (59 : ℝ) / 205 := by
    rw [rpow04_lt_iff _ _ ht0 (by norm_num)]
    norm_num
  have hfloor : update_style_alpha 59 = 108 := by
    simp only [update_style_alpha, ht]
    rw [if_neg (not_lt.mpr ht0), Int.floor_eq_iff]
    constructor
    · push_cast
      linarith
    · push_cast
      linarith
  have hround : spec_alpha_round 59 = 109 := by
    simp only [spec_alpha_round, ht]
    rw [min_eq_right (by norm_num : (9 : ℝ) / 205 ≤ 1), max_eq_right ht0,
      round_eq, Int.floor_eq_iff]
    constructor
    · push_cast
      linarith
    · push_cast
      linarith
  rw [hfloor, hround]
  norm_num

/-- C4: on `[50, 255]` the code's opacity curve is monotonically
non-decreasing, maps 50 to 50 and maps 255 to 255. -/
theorem update_opacity_monotone (v w : Int) (h50 : 50 ≤ v) (hvw : v ≤ w) (h255 : w ≤ 255) :
    update_style_alpha v ≤ update_style_alpha w
    ∧ update_style_alpha 50 = 50 ∧ update_style_alpha 255 = 255 := by
  refine ⟨?_, ?_, ?_⟩
  · have hv50 : (50 : ℝ) ≤ (v : ℝ) := by exact_mod_cast h50
    have hw : (v : ℝ) ≤ (w : ℝ) := by exact_mod_cast hvw
    have htv : (0 : ℝ) ≤ ((v : ℝ) - 50) / 205 := div_nonneg (by linarith) (by norm_num)
    have htw : (0 : ℝ) ≤ ((w : ℝ) - 50) / 205 := div_nonneg (by linarith) (by norm_num)
    have hdiv : ((v : ℝ) - 50) / 205 ≤ ((w : ℝ) - 50) / 205 := by
      apply div_le_div_of_nonneg_right ?_ ?_ <;> first | linarith | norm_num
    have hmono : (((v : ℝ) - 50) / 205) ^ (0.4 : ℝ)
        ≤ (((w : ℝ) - 50) / 205) ^ (0.4 : ℝ) :=
      Real.rpow_le_rpow htv hdiv (by norm_num)
    simp only [update_style_alpha]
    rw [if_neg (not_lt.mpr htv), if_neg (not_lt.mpr htw)]
    apply Int.floor_mono
    linarith
  · have h0 : (((50 : Int) : ℝ) - 50) / 205 = 0 := by norm_num
    simp only [update_style_alpha, h0]
    rw [if_neg (lt_irrefl 0), Real.zero_rpow (by norm_num : (0.4 : ℝ) ≠ 0),
      Int.floor_eq_iff]
    constructor <;> push_cast <;> norm_num
  · have h1 : (((255 : Int) : ℝ) - 50) / 205 = 1 := by norm_num
    simp only [update_style_alpha, h1]
    rw [if_neg (by norm_num : ¬ ((1 : ℝ) < 0)), Real.one_rpow, Int.floor_eq_iff]
    constructor <;> push_cast <;> norm_num

/-- C4 witness: concrete instances of monotonicity and the endpoints. -/
theorem update_opacity_monotone_w :
    update_style_alpha 60 ≤ update_style_alpha 100
    ∧ update_style_alpha 50 = 50 ∧ update_style_alpha 255 = 255 :=
  update_opacity_monotone 60 100 (by decide) (by decide) (by decide)

end Klarion
